import Mathlib

/-!
Verification development for a small Express/Mongoose/Joi CRUD service
(`src/index.js`): users and posts with validation, ownership checks and
query endpoints.  The route handlers are embedded as pure Lean functions
over an explicit store; MongoDB is modelled at the level the spec fixes
(documents in two collections, lookup by unique id, query filters), and
Joi validation is embedded field by field in schema declaration order
with its default fail-fast (`abortEarly`) reporting.
-/

set_option autoImplicit false

namespace NodeDay3

/-- A scalar JSON value as it appears in a parsed request body
(`req.body` after `express.json()`).  Nested arrays/objects are not needed
by any property below: every schema field is a scalar, and a non-scalar
value fails the same type checks that `bool`/`null` fail. -/
inductive JsValue where
  | str (s : String)
  | num (n : Int)
  | bool (b : Bool)
  | null
  deriving DecidableEq, Repr

/-- A parsed JSON request body: an association list from key to value. -/
abbrev Body := List (String × JsValue)

/-- Lookup `req.body[k]`: first binding of key `k` in the body, if any. -/
def getField (body : Body) (k : String) : Option JsValue :=
  (List.find? (fun p => p.1 = k) body).map Prod.snd

/-- A stored `User` document (mongoose `userSchema`, src/index.js:15-22).
`id` stands for the engine-generated `_id`; `age` is a JS number used as an
integer throughout the service. -/
structure User where
  id : String
  userName : String
  email : String
  password : String
  age : Int
  gender : String
  phone : String
  deriving DecidableEq, Repr

/-- A stored `Post` document (mongoose `postSchema`, src/index.js:26-31).
`userID` is the owner reference rendered as a string (the code always
compares `post.userID.toString()` with body strings); `date` is the
timestamp, an integer epoch value. -/
structure Post where
  id : String
  title : String
  content : String
  userID : String
  date : Int
  deriving DecidableEq, Repr

/-- The two MongoDB collections the service touches. -/
structure Store where
  users : List User
  posts : List Post
  deriving DecidableEq, Repr

/-! ## Joi validation layer (src/index.js:35-48)

Joi validates the declared keys in schema declaration order and then
flags unknown keys (`allowUnknown` defaults to false); with the default
`abortEarly: true` only the first error in that order is reported
(`error.details[0].message`).  We embed the full error list and take its
head, so the fail-fast policy is a provable fact about the head of the
aggregate list. -/

/-- Surround a key with double quotes, as Joi messages do. -/
def quoteKey (k : String) : String := "\x22" ++ k ++ "\x22"

/-- Error for a `Joi.string().required()` field: required, must be a
string, and Joi strings reject the empty string by default. -/
def strFieldError (body : Body) (k : String) : Option String :=
  match getField body k with
  | none => some (quoteKey k ++ " is required")
  | some (JsValue.str s) =>
      if s = "" then some (quoteKey k ++ " is not allowed to be empty") else none
  | some _ => some (quoteKey k ++ " must be a string")

/-- Split a character list at every occurrence of `c` (used to take an
address apart at its at-signs). -/
def splitAtChar (c : Char) : List Char → List (List Char)
  | [] => [[]]
  | x :: xs =>
      match splitAtChar c xs with
      | [] => if x = c then [[], []] else [[x]]
      | y :: ys => if x = c then [] :: y :: ys else (x :: y) :: ys

/-- Simplified embedding of Joi's email-syntax check: a single `@` with a
nonempty local part and a dotted, nonempty domain that neither begins nor
ends with a dot.  No property below turns on the precise email grammar;
this captures the shape Joi accepts for the concrete addresses used in
the witnesses. -/
def isEmailFormat (s : String) : Bool :=
  match splitAtChar '@' s.data with
  | [l, d] =>
      !l.isEmpty && !d.isEmpty && d.contains '.' &&
        !(d.head? == some '.') && !(d.getLast? == some '.')
  | _ => false

/-- Error for `email: Joi.string().email().required()`. -/
def emailFieldError (body : Body) : Option String :=
  match getField body "email" with
  | none => some (quoteKey "email" ++ " is required")
  | some (JsValue.str s) =>
      if s = "" then some (quoteKey "email" ++ " is not allowed to be empty")
      else if isEmailFormat s then none
      else some (quoteKey "email" ++ " must be a valid email")
  | some _ => some (quoteKey "email" ++ " must be a string")

/-- Joi `number()` conversion: a JSON number is taken as is, and (per
Joi's default `convert: true`) a string that parses as an integer is
converted; anything else is not a number.  Numbers are embedded as `Int`
(every age/date the service handles is integral). -/
def numFieldVal : JsValue → Option Int
  | JsValue.num n => some n
  | JsValue.str s => s.toInt?
  | _ => none

/-- Error for `age: Joi.number().integer().min(0).required()`. -/
def ageFieldError (body : Body) : Option String :=
  match getField body "age" with
  | none => some (quoteKey "age" ++ " is required")
  | some v =>
      match numFieldVal v with
      | none => some (quoteKey "age" ++ " must be a number")
      | some n =>
          if n < 0 then some (quoteKey "age" ++ " must be greater than or equal to 0")
          else none

/-- Keys declared by `userValidationSchema`. -/
def userSchemaKeys : List String :=
  ["userName", "email", "password", "age", "gender", "phone"]

/-- Keys declared by `postValidationSchema`.  Note `date` is absent: the
schema only declares `title`, `content`, `userID`. -/
def postSchemaKeys : List String := ["title", "content", "userID"]

/-- Joi errors for keys not declared in the schema (`allowUnknown` is
false by default): each such key yields `"k" is not allowed`. -/
def unknownKeyErrors (body : Body) (allowed : List String) : List String :=
  (body.filter (fun kv => !(allowed.contains kv.1))).map
    (fun kv => quoteKey kv.1 ++ " is not allowed")

/-- All violations of `userValidationSchema` in validation order:
declared fields in schema declaration order, then unknown keys. -/
def userErrors (body : Body) : List String :=
  ([strFieldError body "userName", emailFieldError body,
    strFieldError body "password", ageFieldError body,
    strFieldError body "gender", strFieldError body "phone"].filterMap id)
    ++ unknownKeyErrors body userSchemaKeys

/-- Validation entry `userValidationSchema.validate(req.body)`: with the default
`abortEarly: true` the reported error is the first violation
(`error.details[0].message`), `none` when the body is valid. -/
def validateUser (body : Body) : Option String := (userErrors body).head?

/-- All violations of `postValidationSchema` in validation order. -/
def postErrors (body : Body) : List String :=
  ([strFieldError body "title", strFieldError body "content",
    strFieldError body "userID"].filterMap id)
    ++ unknownKeyErrors body postSchemaKeys

/-- Validation entry `postValidationSchema.validate(req.body)`, fail-fast as above. -/
def validatePost (body : Body) : Option String := (postErrors body).head?

/-! ## Route handlers

Each handler is a pure function from the store and the request pieces it
reads to an `ApiResult`: the HTTP status (`res.status(...)`, 200 when the
code calls plain `res.send`), the JSON payload sent, and the store after
the request.  Engine-generated ids and `Date.now()` enter as explicit
parameters. -/

/-- The JSON payload a handler sends. -/
inductive ApiBody where
  | user (u : User)
  | users (l : List User)
  | post (p : Post)
  | posts (l : List Post)
  | msg (s : String)
  deriving DecidableEq, Repr

/-- Status, payload and post-request store of one handled request. -/
structure ApiResult where
  status : Nat
  body : ApiBody
  store : Store
  deriving DecidableEq, Repr

/-- Read an already-validated string field out of the body (the `""`
default is never reached once validation has passed). -/
def asStr (v : Option JsValue) : String :=
  match v with
  | some (JsValue.str s) => s
  | _ => ""

/-- Read an already-validated number field out of the body. -/
def asNum (v : Option JsValue) : Int :=
  match v with
  | some v => (numFieldVal v).getD 0
  | none => 0

/-- Constructor `new User(req.body)` with engine id `freshId`: the six schema fields
are taken from the body. -/
def mkUser (freshId : String) (body : Body) : User :=
  { id := freshId
    userName := asStr (getField body "userName")
    email := asStr (getField body "email")
    password := asStr (getField body "password")
    age := asNum (getField body "age")
    gender := asStr (getField body "gender")
    phone := asStr (getField body "phone") }

/-- Lookup `User.findById(id)`: Mongo ids are unique, so
the first match is the document. -/
def findUserById (s : Store) (id : String) : Option User :=
  List.find? (fun u => u.id = id) s.users

/-- Lookup `Post.findById(id)`. -/
def findPostById (s : Store) (id : String) : Option Post :=
  List.find? (fun p => p.id = id) s.posts

/-- Handler for `POST /api/users/signup` (src/index.js:50-66): validate the body,
reject a duplicate email with 400, otherwise persist `new User(req.body)`
and send it. -/
def signupHandler (s : Store) (body : Body) (freshId : String) : ApiResult :=
  match validateUser body with
  | some e => { status := 400, body := ApiBody.msg e, store := s }
  | none =>
      match List.find? (fun u => u.email = asStr (getField body "email")) s.users with
      | some _ => { status := 400, body := ApiBody.msg "Email already exists", store := s }
      | none =>
          let u := mkUser freshId body
          { status := 200, body := ApiBody.user u
            store := { s with users := s.users ++ [u] } }

/-- Handler for `PUT /api/users/:id` (src/index.js:69-82): validate the whole body,
404 when the id is absent, otherwise `findByIdAndUpdate` overwrites every
schema field from the body (`new: true` returns the updated document). -/
def updateUserHandler (s : Store) (id : String) (body : Body) : ApiResult :=
  match validateUser body with
  | some e => { status := 400, body := ApiBody.msg e, store := s }
  | none =>
      match findUserById s id with
      | none => { status := 404, body := ApiBody.msg "User not found", store := s }
      | some _ =>
          let u2 := mkUser id body
          { status := 200, body := ApiBody.user u2
            store := { s with users := s.users.map (fun v => if v.id = id then u2 else v) } }

/-- JS template-literal interpolation as used to build the search
pattern (a caret followed by the interpolated `nameStartsWith`): an
`undefined` query parameter interpolates as the literal text
`undefined`. -/
def jsInterp : Option String → String
  | none => "undefined"
  | some s => s

/-- Matcher for the anchored pattern `'^' + pat` with the `'i'` flag,
applied from the start of the input: `.` matches any character, any other
character matches itself case-insensitively.  This covers the fragment of
JS regex syntax the properties below exercise (literal characters and the
`.` wildcard); patterns using other regex operators are outside their
scope. -/
def regexPrefixMatchCI : List Char → List Char → Bool
  | [], _ => true
  | _ :: _, [] => false
  | c :: ps, x :: xs =>
      (if c = '.' then true else c.toLower = x.toLower) && regexPrefixMatchCI ps xs

/-- The `userName` clause of the search query,
`userName: { $regex: new RegExp('^' + nameStartsWith, 'i') }`, including
the interpolation of an absent parameter as the text `undefined`. -/
def nameClause (nameStartsWith : Option String) (userName : String) : Bool :=
  regexPrefixMatchCI (jsInterp nameStartsWith).data userName.data

/-- The `age: { $lt: maxAge }` clause.  A present parameter is cast to a
number; an absent one reaches the engine as a null bound, and in BSON
comparison order no number is less than null, so the clause then matches
no stored (numeric) age. -/
def ageLtClause (maxAge : Option Int) (age : Int) : Bool :=
  match maxAge with
  | some m => age < m
  | none => false

/-- Handler for `GET /api/users/search` (src/index.js:98-112): one `find` with the
name-regex clause and the `$lt` age clause. -/
def searchUsersHandler (s : Store) (nameStartsWith : Option String)
    (maxAge : Option Int) : ApiResult :=
  { status := 200
    body := ApiBody.users (s.users.filter
      (fun u => nameClause nameStartsWith u.userName && ageLtClause maxAge u.age))
    store := s }

/-- Handler for `GET /api/users/search/age` (src/index.js:115-128): one `find` with
`age: { $gte: minAge, $lte: maxAge }`. -/
def searchUsersByAgeHandler (s : Store) (minAge maxAge : Int) : ApiResult :=
  { status := 200
    body := ApiBody.users (s.users.filter
      (fun u => decide (minAge ≤ u.age) && decide (u.age ≤ maxAge)))
    store := s }

/-- Handler for `GET /api/users/:id/profile` (src/index.js:142-153): `findById`, 404
when absent, then a second `findById(...).populate('posts')`.  The user
schema declares no `posts` path, so the populate step adds nothing and
the stored document is sent as is (modelled from the spec's design note
that the expansion is a no-op; the populate call itself is library code
outside this repository). -/
def userProfileHandler (s : Store) (id : String) : ApiResult :=
  match findUserById s id with
  | none => { status := 404, body := ApiBody.msg "User not found", store := s }
  | some _ =>
      match findUserById s id with
      | some u => { status := 200, body := ApiBody.user u, store := s }
      | none => { status := 200, body := ApiBody.msg "null", store := s }

/-- Handler for `POST /api/posts` (src/index.js:158-174): validate the body, 404 when
`body.userID` matches no user, otherwise persist `new Post(req.body)`.
The schema default fills `date` with the creation time `now` (validation
has already rejected any body that carries a `date` key). -/
def addPostHandler (s : Store) (body : Body) (freshId : String) (now : Int) : ApiResult :=
  match validatePost body with
  | some e => { status := 400, body := ApiBody.msg e, store := s }
  | none =>
      match findUserById s (asStr (getField body "userID")) with
      | none => { status := 404, body := ApiBody.msg "User not found", store := s }
      | some _ =>
          let p : Post :=
            { id := freshId
              title := asStr (getField body "title")
              content := asStr (getField body "content")
              userID := asStr (getField body "userID")
              date := now }
          { status := 200, body := ApiBody.post p
            store := { s with posts := s.posts ++ [p] } }

/-- The ownership test `post.userID.toString() !== req.body.userID`:
a strict JS comparison, true only when the body carries the stored owner
id as a string. -/
def ownerMatches (p : Post) (body : Body) : Bool :=
  match getField body "userID" with
  | some (JsValue.str t) => t = p.userID
  | _ => false

/-- Handler for `DELETE /api/posts/:id` (src/index.js:177-192): `findById`, 404 when
absent, 403 when the body's `userID` differs from the stored owner,
otherwise remove the document and send it. -/
def deletePostHandler (s : Store) (id : String) (body : Body) : ApiResult :=
  match findPostById s id with
  | none => { status := 404, body := ApiBody.msg "Post not found", store := s }
  | some p =>
      if ownerMatches p body then
        { status := 200, body := ApiBody.post p
          store := { s with posts := s.posts.filter (fun q => !(q.id = id)) } }
      else
        { status := 403, body := ApiBody.msg "You are not authorized to delete this post"
          store := s }

/-- Handler for `PUT /api/posts/:id` (src/index.js:195-215): validate the body first,
then `findById` (404), then the ownership check (403), then
`post.set(req.body)` overwrites the three schema fields from the body
(`date` and `_id` are untouched: validation rejects a body carrying
them) and the document is saved and sent. -/
def updatePostHandler (s : Store) (id : String) (body : Body) : ApiResult :=
  match validatePost body with
  | some e => { status := 400, body := ApiBody.msg e, store := s }
  | none =>
      match findPostById s id with
      | none => { status := 404, body := ApiBody.msg "Post not found", store := s }
      | some p =>
          if ownerMatches p body then
            let p2 : Post :=
              { p with
                title := asStr (getField body "title")
                content := asStr (getField body "content")
                userID := asStr (getField body "userID") }
            { status := 200, body := ApiBody.post p2
              store := { s with posts := s.posts.map (fun q => if q.id = id then p2 else q) } }
          else
            { status := 403, body := ApiBody.msg "You are not authorized to update this post"
              store := s }

/-! ## Auxiliary notions used by the properties -/

/-- Modelled from the spec: the search clause as the spec words it,
"userName starts with the given prefix (case-insensitive)".  Compared
below with `regexPrefixMatchCI`, the clause the code actually builds. -/
def specStartsWithCI : List Char → List Char → Bool
  | [], _ => true
  | _ :: _, [] => false
  | c :: ps, x :: xs => (c.toLower = x.toLower) && specStartsWithCI ps xs

/-- Characters with no special meaning in a JS regular expression (the
interpolated search text is spliced into a pattern verbatim). -/
def regexLiteralChar (c : Char) : Bool :=
  !(['.', '*', '+', '?', '(', ')', '[', ']', '|', '^', '$', '\\',
     Char.ofNat 123, Char.ofNat 125].contains c)

/-- The user list carried by a handler payload (empty for non-list
payloads). -/
def usersOf : ApiBody → List User
  | ApiBody.users l => l
  | _ => []

/-- The spec's invariant: no two stored users share an email. -/
def uniqueEmails (l : List User) : Prop :=
  l.Pairwise (fun a b => a.email ≠ b.email)

/-! ## Concrete fixtures for the witness instances -/

/-- Fixture user "Alice", age 30. -/
def wAlice : User :=
  { id := "u1", userName := "Alice", email := "alice@x.com", password := "pw"
    age := 30, gender := "f", phone := "100" }

/-- Fixture user "ALBERT", age 25. -/
def wAlbert : User :=
  { id := "u2", userName := "ALBERT", email := "albert@x.com", password := "pw"
    age := 25, gender := "m", phone := "200" }

/-- Fixture user "Balrog", age 40. -/
def wBalrog : User :=
  { id := "u3", userName := "Balrog", email := "balrog@x.com", password := "pw"
    age := 40, gender := "m", phone := "300" }

/-- Fixture user "Bob", age 20. -/
def wBob : User :=
  { id := "u4", userName := "Bob", email := "bob@x.com", password := "pw"
    age := 20, gender := "m", phone := "400" }

/-- Fixture users at the age boundaries 19, 20, 30 and 31. -/
def wU19 : User :=
  { id := "a19", userName := "N19", email := "n19@x.com", password := "pw"
    age := 19, gender := "f", phone := "19" }

/-- Fixture boundary user of age 20. -/
def wU20 : User :=
  { id := "a20", userName := "N20", email := "n20@x.com", password := "pw"
    age := 20, gender := "f", phone := "20" }

/-- Fixture boundary user of age 30. -/
def wU30 : User :=
  { id := "a30", userName := "N30", email := "n30@x.com", password := "pw"
    age := 30, gender := "f", phone := "30" }

/-- Fixture boundary user of age 31. -/
def wU31 : User :=
  { id := "a31", userName := "N31", email := "n31@x.com", password := "pw"
    age := 31, gender := "f", phone := "31" }

/-- Store with the three name-search fixture users. -/
def wNameStore : Store := { users := [wAlice, wAlbert, wBalrog], posts := [] }

/-- Store holding only "Bob". -/
def wBobStore : Store := { users := [wBob], posts := [] }

/-- Store with the four age-boundary fixture users. -/
def wAgeStore : Store := { users := [wU19, wU20, wU30, wU31], posts := [] }

/-- Fixture post owned by user "u1". -/
def wPost : Post :=
  { id := "p1", title := "t", content := "c", userID := "u1", date := 0 }

/-- Store with "Alice" (id u1) and her post p1. -/
def wPostStore : Store := { users := [wAlice], posts := [wPost] }

/-- Body carrying only a mismatched owner id (fails post validation). -/
def wMismatchBody : Body := [("userID", JsValue.str "u2")]

/-- Fully valid post body carrying a mismatched owner id. -/
def wValidMismatchBody : Body :=
  [("title", JsValue.str "t2"), ("content", JsValue.str "c2"),
   ("userID", JsValue.str "u2")]

/-- Fully valid post body carrying the stored owner id u1. -/
def wOwnerBody : Body :=
  [("title", JsValue.str "t2"), ("content", JsValue.str "c2"),
   ("userID", JsValue.str "u1")]

/-- The post p1 after the update with `wOwnerBody`. -/
def wPost2 : Post :=
  { id := "p1", title := "t2", content := "c2", userID := "u1", date := 0 }

/-- A body passing user validation (email "carol@x.com"). -/
def wValidUserBody : Body :=
  [("userName", JsValue.str "Carol"), ("email", JsValue.str "carol@x.com"),
   ("password", JsValue.str "pw"), ("age", JsValue.num 22),
   ("gender", JsValue.str "f"), ("phone", JsValue.str "500")]

/-- A body passing user validation but reusing Alice's email. -/
def wDupEmailBody : Body :=
  [("userName", JsValue.str "Mallory"), ("email", JsValue.str "alice@x.com"),
   ("password", JsValue.str "pw"), ("age", JsValue.num 23),
   ("gender", JsValue.str "f"), ("phone", JsValue.str "600")]

/-- A user body with an extra key outside the schema. -/
def wUnknownUserBody : Body :=
  [("userName", JsValue.str "Carol"), ("email", JsValue.str "carol@x.com"),
   ("password", JsValue.str "pw"), ("age", JsValue.num 22),
   ("gender", JsValue.str "f"), ("phone", JsValue.str "500"),
   ("isAdmin", JsValue.bool true)]

/-- A post body with a client-supplied `date` key (outside the schema). -/
def wDatePostBody : Body :=
  [("title", JsValue.str "t"), ("content", JsValue.str "c"),
   ("userID", JsValue.str "u1"), ("date", JsValue.num 5)]

/-- A body with several violations at once: `age` out of range,
everything else missing. -/
def wManyErrorsBody : Body := [("age", JsValue.num (-5))]

/-! ## Theorems -/

/-- On patterns made of characters with no special regex meaning, the
anchored case-insensitive regex match is exactly the spec's
case-insensitive starts-with. -/
theorem regexPrefixMatchCI_eq_spec (ps : List Char)
    (h : ∀ c ∈ ps, regexLiteralChar c = true) (xs : List Char) :
    regexPrefixMatchCI ps xs = specStartsWithCI ps xs := by
  induction ps generalizing xs with
  | nil => cases xs <;> rfl
  | cons c ps ih =>
    cases xs with
    | nil => rfl
    | cons x xs =>
      have hc : regexLiteralChar c = true := h c (List.mem_cons_self c ps)
      have hcd : ¬(c = '.') := by
        intro hcc
        rw [hcc] at hc
        simp [regexLiteralChar] at hc
      have hrec := ih (fun d hd => h d (List.mem_cons_of_mem c hd)) xs
      simp [regexPrefixMatchCI, specStartsWithCI, hcd, hrec]

/-- A body holding a key outside the allowed list contributes at least
one unknown-key error. -/
theorem unknownKeyErrors_ne_nil (body : Body) (allowed : List String)
    (h : ∃ kv ∈ body, ¬ kv.1 ∈ allowed) :
    unknownKeyErrors body allowed ≠ [] := by
  rcases h with ⟨kv, hmem, hk⟩
  have hf : kv ∈ List.filter (fun kv => !(allowed.contains kv.1)) body :=
    List.mem_filter.mpr ⟨hmem, by simpa using hk⟩
  intro hnil
  rw [unknownKeyErrors, List.map_eq_nil_iff] at hnil
  rw [hnil] at hf
  exact List.not_mem_nil kv hf

/-- C6: `GET /api/users/search/age` returns exactly the stored users
whose age lies in the inclusive range `[minAge, maxAge]`; a user whose
age is one below `minAge` or one above `maxAge` is excluded. -/
theorem search_age_inclusive (s : Store) (minAge maxAge : Int) (u : User) :
    (u ∈ usersOf (searchUsersByAgeHandler s minAge maxAge).body ↔
      u ∈ s.users ∧ minAge ≤ u.age ∧ u.age ≤ maxAge) ∧
    (u.age = minAge - 1 → ¬ u ∈ usersOf (searchUsersByAgeHandler s minAge maxAge).body) ∧
    (u.age = maxAge + 1 → ¬ u ∈ usersOf (searchUsersByAgeHandler s minAge maxAge).body) := by
  have hm : u ∈ usersOf (searchUsersByAgeHandler s minAge maxAge).body ↔
      u ∈ s.users ∧ minAge ≤ u.age ∧ u.age ≤ maxAge := by
    simp [searchUsersByAgeHandler, usersOf, List.mem_filter, and_assoc]
  refine ⟨hm, ?_, ?_⟩ <;> intro ha hmem <;> rcases hm.mp hmem with ⟨-, h1, h2⟩ <;> omega

/-- Witness for `search_age_inclusive` on the 20..30 range over the
age-boundary fixture store. -/
theorem search_age_inclusive_witness :
    wU20 ∈ usersOf (searchUsersByAgeHandler wAgeStore 20 30).body ∧
    wU30 ∈ usersOf (searchUsersByAgeHandler wAgeStore 20 30).body ∧
    ¬ wU19 ∈ usersOf (searchUsersByAgeHandler wAgeStore 20 30).body ∧
    ¬ wU31 ∈ usersOf (searchUsersByAgeHandler wAgeStore 20 30).body :=
  ⟨(search_age_inclusive wAgeStore 20 30 wU20).1.mpr (by decide),
   (search_age_inclusive wAgeStore 20 30 wU30).1.mpr (by decide),
   (search_age_inclusive wAgeStore 20 30 wU19).2.1 (by decide),
   (search_age_inclusive wAgeStore 20 30 wU31).2.2 (by decide)⟩

/-- C7: the profile endpoint answers 404 and leaves the store unchanged
when the id matches no stored user, and otherwise sends the stored
record itself: the posts-expansion step adds nothing, since the user
schema declares no posts field. -/
theorem profile_lookup (s : Store) (id : String) :
    (findUserById s id = none →
      userProfileHandler s id =
        { status := 404, body := ApiBody.msg "User not found", store := s }) ∧
    (∀ u, findUserById s id = some u →
      userProfileHandler s id = { status := 200, body := ApiBody.user u, store := s }) := by
  constructor
  · intro h
    simp [userProfileHandler, h]
  · intro u h
    simp [userProfileHandler, h]

/-- Witness for `profile_lookup`: Alice's profile is her stored record,
and an unknown id answers 404. -/
theorem profile_lookup_witness :
    userProfileHandler wNameStore "u1" =
      { status := 200, body := ApiBody.user wAlice, store := wNameStore } ∧
    userProfileHandler wNameStore "zz" =
      { status := 404, body := ApiBody.msg "User not found", store := wNameStore } :=
  ⟨(profile_lookup wNameStore "u1").2 wAlice (by decide),
   (profile_lookup wNameStore "zz").1 (by decide)⟩

/-- C2: creating a post whose `userID` matches no stored user's id
answers 404 and leaves the post collection untouched. -/
theorem add_post_unknown_user (s : Store) (body : Body) (freshId : String) (now : Int)
    (hv : validatePost body = none)
    (h : ∀ u ∈ s.users, ¬ u.id = asStr (getField body "userID")) :
    (addPostHandler s body freshId now).status = 404 ∧
    (addPostHandler s body freshId now).store = s := by
  have hf : findUserById s (asStr (getField body "userID")) = none := by
    rw [findUserById, List.find?_eq_none]
    intro u hu
    simpa using h u hu
  constructor <;> simp [addPostHandler, hv, hf]

/-- Witness for `add_post_unknown_user`: a valid post body naming owner
u1 against a store whose only user is u4. -/
theorem add_post_unknown_user_witness :
    (addPostHandler wBobStore wOwnerBody "p9" 7).status = 404 ∧
    (addPostHandler wBobStore wOwnerBody "p9" 7).store = wBobStore :=
  add_post_unknown_user wBobStore wOwnerBody "p9" 7 (by decide) (by decide)

/-- C3: for a body passing user validation, signup persists the new user
and sends it with 200 when no stored user carries that email, answers
400 leaving the store unchanged when one does, and therefore preserves
the invariant that no two stored users share an email. -/
theorem signup_email_uniqueness (s : Store) (body : Body) (freshId : String)
    (hv : validateUser body = none) :
    ((∀ u ∈ s.users, ¬ u.email = asStr (getField body "email")) →
      signupHandler s body freshId =
        { status := 200, body := ApiBody.user (mkUser freshId body)
          store := { s with users := s.users ++ [mkUser freshId body] } }) ∧
    ((∃ u ∈ s.users, u.email = asStr (getField body "email")) →
      (signupHandler s body freshId).status = 400 ∧
      (signupHandler s body freshId).store = s) ∧
    (uniqueEmails s.users → uniqueEmails (signupHandler s body freshId).store.users) := by
  refine ⟨?_, ?_, ?_⟩
  · intro h
    have hf : List.find? (fun u => u.email = asStr (getField body "email")) s.users = none := by
      rw [List.find?_eq_none]
      intro u hu
      simpa using h u hu
    simp [signupHandler, hv, hf]
  · intro h
    rcases h with ⟨u, hu, he⟩
    have hsome : (List.find? (fun u => u.email = asStr (getField body "email")) s.users).isSome := by
      rw [List.find?_isSome]
      exact ⟨u, hu, by simpa using he⟩
    rcases Option.isSome_iff_exists.mp hsome with ⟨v, hfv⟩
    constructor <;> simp [signupHandler, hv, hfv]
  · intro huniq
    cases hf : List.find? (fun u => u.email = asStr (getField body "email")) s.users with
    | some v => simpa [signupHandler, hv, hf] using huniq
    | none =>
      have hall : ∀ u ∈ s.users, ¬ u.email = asStr (getField body "email") := by
        rw [List.find?_eq_none] at hf
        intro u hu
        simpa using hf u hu
      simp only [signupHandler, hv, hf, uniqueEmails, List.pairwise_append]
      refine ⟨huniq, List.pairwise_singleton _ _, ?_⟩
      intro a ha b hb
      rw [List.mem_singleton.mp hb]
      simpa [mkUser] using hall a ha

/-- Witness for `signup_email_uniqueness`: a fresh email succeeds
against the fixture store and Alice's email is rejected. -/
theorem signup_email_uniqueness_witness :
    signupHandler wNameStore wValidUserBody "u9" =
      { status := 200, body := ApiBody.user (mkUser "u9" wValidUserBody)
        store := { wNameStore with users := wNameStore.users ++ [mkUser "u9" wValidUserBody] } } ∧
    (signupHandler wNameStore wDupEmailBody "u9").status = 400 ∧
    (signupHandler wNameStore wDupEmailBody "u9").store = wNameStore := by
  have hdup := (signup_email_uniqueness wNameStore wDupEmailBody "u9" (by decide)).2.1
    ⟨wAlice, by decide, by decide⟩
  exact ⟨(signup_email_uniqueness wNameStore wValidUserBody "u9" (by decide)).1 (by decide),
    hdup.1, hdup.2⟩

/-- C8: a body violating the user (resp. post) schema is answered with
400 carrying exactly one message, the first violation in schema
validation order, even when several constraints fail at once. -/
theorem validation_fail_fast (s : Store) (body : Body) (freshId : String) (now : Int)
    (e : String) (rest : List String) :
    (userErrors body = e :: rest →
      signupHandler s body freshId = { status := 400, body := ApiBody.msg e, store := s }) ∧
    (postErrors body = e :: rest →
      addPostHandler s body freshId now = { status := 400, body := ApiBody.msg e, store := s }) := by
  constructor
  · intro h
    have hv : validateUser body = some e := by
      rw [validateUser, h]
      rfl
    simp [signupHandler, hv]
  · intro h
    have hv : validatePost body = some e := by
      rw [validatePost, h]
      rfl
    simp [addPostHandler, hv]

/-- Witness for `validation_fail_fast`: a body violating six user
constraints at once is answered with only the first message. -/
theorem validation_fail_fast_witness :
    userErrors wManyErrorsBody =
      ["\"userName\" is required", "\"email\" is required", "\"password\" is required",
       "\"age\" must be greater than or equal to 0", "\"gender\" is required",
       "\"phone\" is required"] ∧
    signupHandler wNameStore wManyErrorsBody "u9" =
      { status := 400, body := ApiBody.msg "\"userName\" is required", store := wNameStore } :=
  ⟨by decide,
   (validation_fail_fast wNameStore wManyErrorsBody "u9" 0 "\"userName\" is required"
      ["\"email\" is required", "\"password\" is required",
       "\"age\" must be greater than or equal to 0", "\"gender\" is required",
       "\"phone\" is required"]).1 (by decide)⟩

/-- C10: a body carrying any key outside the schema fails validation, so
signup and user update (user schema), and post creation and update (post
schema), answer 400 and leave the store untouched; consequently a
client-supplied `date` never reaches a post, and every successfully
created post carries the creation-time default date. -/
theorem unknown_keys_rejected (s : Store) (id freshId : String) (body : Body) (now : Int) :
    ((∃ kv ∈ body, ¬ kv.1 ∈ userSchemaKeys) →
      (signupHandler s body freshId).status = 400 ∧
      (signupHandler s body freshId).store = s ∧
      (updateUserHandler s id body).status = 400 ∧
      (updateUserHandler s id body).store = s) ∧
    ((∃ kv ∈ body, ¬ kv.1 ∈ postSchemaKeys) →
      (addPostHandler s body freshId now).status = 400 ∧
      (addPostHandler s body freshId now).store = s ∧
      (updatePostHandler s id body).status = 400 ∧
      (updatePostHandler s id body).store = s) ∧
    ((addPostHandler s body freshId now).status = 200 →
      ∃ p, (addPostHandler s body freshId now).body = ApiBody.post p ∧ p.date = now) := by
  refine ⟨?_, ?_, ?_⟩
  · intro h
    have hun := unknownKeyErrors_ne_nil body userSchemaKeys h
    have hv : ∃ e, validateUser body = some e := by
      rw [validateUser]
      cases hcase : userErrors body with
      | nil =>
        rw [userErrors] at hcase
        exact absurd (List.append_eq_nil.mp hcase).2 hun
      | cons e r => exact ⟨e, rfl⟩
    rcases hv with ⟨e, hv⟩
    refine ⟨?_, ?_, ?_, ?_⟩ <;> simp [signupHandler, updateUserHandler, hv]
  · intro h
    have hun := unknownKeyErrors_ne_nil body postSchemaKeys h
    have hv : ∃ e, validatePost body = some e := by
      rw [validatePost]
      cases hcase : postErrors body with
      | nil =>
        rw [postErrors] at hcase
        exact absurd (List.append_eq_nil.mp hcase).2 hun
      | cons e r => exact ⟨e, rfl⟩
    rcases hv with ⟨e, hv⟩
    refine ⟨?_, ?_, ?_, ?_⟩ <;> simp [addPostHandler, updatePostHandler, hv]
  · intro h200
    cases hv : validatePost body with
    | some e => simp [addPostHandler, hv] at h200
    | none =>
      cases hf : findUserById s (asStr (getField body "userID")) with
      | none => simp [addPostHandler, hv, hf] at h200
      | some u =>
        exact ⟨{ id := freshId, title := asStr (getField body "title")
                 content := asStr (getField body "content")
                 userID := asStr (getField body "userID"), date := now },
               by simp [addPostHandler, hv, hf], rfl⟩

/-- Witness for `unknown_keys_rejected`: an extra `isAdmin` key on
signup and a client-supplied `date` on post creation are both rejected,
and a successful creation stamps the creation time. -/
theorem unknown_keys_rejected_witness :
    (signupHandler wNameStore wUnknownUserBody "u9").status = 400 ∧
    (addPostHandler wPostStore wDatePostBody "p9" 7).status = 400 ∧
    (addPostHandler wPostStore wDatePostBody "p9" 7).store = wPostStore ∧
    (∃ p, (addPostHandler wPostStore wOwnerBody "p9" 77).body = ApiBody.post p ∧
      p.date = 77) := by
  refine ⟨?_, ?_, ?_, ?_⟩
  · exact ((unknown_keys_rejected wNameStore "z" "u9" wUnknownUserBody 0).1 (by decide)).1
  · exact ((unknown_keys_rejected wPostStore "z" "p9" wDatePostBody 7).2.1 (by decide)).1
  · exact ((unknown_keys_rejected wPostStore "z" "p9" wDatePostBody 7).2.1 (by decide)).2.1
  · exact (unknown_keys_rejected wPostStore "z" "p9" wOwnerBody 77).2.2 (by decide)

/-- C1 (amended): when a stored post's owner differs from the `userID`
the body carries, DELETE answers 403 and leaves the store unchanged,
while PUT leaves the store unchanged and answers 403 when the body
passes post validation but 400 (validation runs first) when it does
not. -/
theorem ownership_mismatch_rejected (s : Store) (id : String) (body : Body)
    (p : Post) (t : String)
    (hp : findPostById s id = some p)
    (ht : getField body "userID" = some (JsValue.str t))
    (hne : ¬ t = p.userID) :
    (deletePostHandler s id body).status = 403 ∧
    (deletePostHandler s id body).store = s ∧
    (validatePost body = none → (updatePostHandler s id body).status = 403) ∧
    (∀ e, validatePost body = some e → (updatePostHandler s id body).status = 400) ∧
    (updatePostHandler s id body).store = s := by
  have hom : ownerMatches p body = false := by
    simp [ownerMatches, ht, hne]
  refine ⟨?_, ?_, ?_, ?_, ?_⟩
  · simp [deletePostHandler, hp, hom]
  · simp [deletePostHandler, hp, hom]
  · intro hv
    simp [updatePostHandler, hv, hp, hom]
  · intro e hv
    simp [updatePostHandler, hv]
  · cases hv : validatePost body with
    | none => simp [updatePostHandler, hv, hp, hom]
    | some e => simp [updatePostHandler, hv]

/-- C1 counterexample: the stored post p1 is owned by u1 and the PUT
body carries userID u2, yet the handler answers 400, not 403, because
the body fails validation, which runs before the ownership check. -/
theorem ownership_mismatch_rejected_counterexample :
    findPostById wPostStore "p1" = some wPost ∧
    getField wMismatchBody "userID" = some (JsValue.str "u2") ∧
    wPost.userID = "u1" ∧
    (updatePostHandler wPostStore "p1" wMismatchBody).status = 400 ∧
    ¬ (updatePostHandler wPostStore "p1" wMismatchBody).status = 403 :=
  ⟨by decide, by decide, by decide, by decide, by decide⟩

/-- Witness for `ownership_mismatch_rejected` at the fixture store: a
mismatched owner gets 403 on DELETE, 403 on a PUT with a valid body,
400 on a PUT with an invalid one, the store unchanged throughout. -/
theorem ownership_mismatch_rejected_witness :
    (deletePostHandler wPostStore "p1" wValidMismatchBody).status = 403 ∧
    (deletePostHandler wPostStore "p1" wValidMismatchBody).store = wPostStore ∧
    (updatePostHandler wPostStore "p1" wValidMismatchBody).status = 403 ∧
    (updatePostHandler wPostStore "p1" wMismatchBody).status = 400 ∧
    (updatePostHandler wPostStore "p1" wValidMismatchBody).store = wPostStore := by
  have h1 := ownership_mismatch_rejected wPostStore "p1" wValidMismatchBody wPost "u2"
    (by decide) (by decide) (by decide)
  have h2 := ownership_mismatch_rejected wPostStore "p1" wMismatchBody wPost "u2"
    (by decide) (by decide) (by decide)
  exact ⟨h1.1, h1.2.1, h1.2.2.1 (by decide),
    h2.2.2.2.1 "\x22title\x22 is required" (by decide), h1.2.2.2.2⟩

/-- C9: a PUT on a stored post that answers 200 leaves the post's owner
unchanged, both in the response and in the store: the ownership check
forces the body's `userID`, which the update then writes back, to equal
the stored one. -/
theorem update_post_preserves_owner (s : Store) (id : String) (body : Body) (p : Post)
    (hp : findPostById s id = some p)
    (h200 : (updatePostHandler s id body).status = 200) :
    (∀ q, (updatePostHandler s id body).body = ApiBody.post q → q.userID = p.userID) ∧
    (∀ q, findPostById (updatePostHandler s id body).store id = some q →
      q.userID = p.userID) := by
  cases hv : validatePost body with
  | some e => simp [updatePostHandler, hv] at h200
  | none =>
    cases hom : ownerMatches p body with
    | false => simp [updatePostHandler, hv, hp, hom] at h200
    | true =>
      have huid : asStr (getField body "userID") = p.userID := by
        unfold ownerMatches at hom
        cases hg : getField body "userID" with
        | none =>
          rw [hg] at hom
          exact absurd hom (by simp)
        | some v =>
          cases v with
          | str u =>
            rw [hg] at hom
            simp only [decide_eq_true_eq] at hom
            simp [asStr, hg, hom]
          | num n =>
            rw [hg] at hom
            exact absurd hom (by simp)
          | bool b =>
            rw [hg] at hom
            exact absurd hom (by simp)
          | null =>
            rw [hg] at hom
            exact absurd hom (by simp)
      have hres : updatePostHandler s id body =
          { status := 200
            body := ApiBody.post
              { p with title := asStr (getField body "title")
                       content := asStr (getField body "content")
                       userID := asStr (getField body "userID") }
            store := { s with posts := s.posts.map (fun q => if q.id = id then
                { p with title := asStr (getField body "title")
                         content := asStr (getField body "content")
                         userID := asStr (getField body "userID") } else q) } } := by
        simp [updatePostHandler, hv, hp, hom]
      constructor
      · intro q hq
        rw [hres] at hq
        simp only [ApiBody.post.injEq] at hq
        rw [← hq]
        exact huid
      · intro q hq
        rw [hres] at hq
        simp only [findPostById] at hq
        have hqmem := List.mem_of_find?_eq_some hq
        have hqpred : q.id = id := by simpa using List.find?_some hq
        rcases List.mem_map.mp hqmem with ⟨r, hr, hrq⟩
        by_cases hrid : r.id = id
        · rw [if_pos hrid] at hrq
          rw [← hrq]
          exact huid
        · rw [if_neg hrid] at hrq
          rw [← hrq] at hqpred
          exact absurd hqpred hrid

/-- Witness for `update_post_preserves_owner`: the owner-matching PUT
succeeds and keeps owner u1. -/
theorem update_post_preserves_owner_witness :
    (updatePostHandler wPostStore "p1" wOwnerBody).status = 200 ∧
    (updatePostHandler wPostStore "p1" wOwnerBody).body = ApiBody.post wPost2 ∧
    wPost2.userID = wPost.userID := by
  have h := update_post_preserves_owner wPostStore "p1" wOwnerBody wPost
    (by decide) (by decide)
  exact ⟨by decide, by decide, h.1 wPost2 (by decide)⟩

/-- C4 (amended): an empty supplied `nameStartsWith` matches every
userName, but an absent one is interpolated as the literal text
`undefined`, so the name clause then requires the name to start with
"undefined" case-insensitively; an absent `maxAge` bound matches no
age; hence a search with both parameters absent returns no users rather
than every stored user. -/
theorem search_absent_params (s : Store) (name : String) (a : Int) :
    nameClause (some "") name = true ∧
    nameClause none name = specStartsWithCI "undefined".data name.data ∧
    ageLtClause none a = false ∧
    (searchUsersHandler s none none).body = ApiBody.users [] := by
  refine ⟨rfl, ?_, rfl, ?_⟩
  · rw [nameClause, jsInterp]
    exact regexPrefixMatchCI_eq_spec _ (by decide) _
  · simp [searchUsersHandler, ageLtClause]

/-- C4 counterexample: over a store holding Alice, ALBERT and Balrog, a
search with both parameters absent returns no users at all instead of
every stored user. -/
theorem search_absent_params_counterexample :
    ¬ (searchUsersHandler wNameStore none none).body = ApiBody.users wNameStore.users ∧
    ¬ wNameStore.users = [] :=
  ⟨by decide, by decide⟩

/-- C5 (amended): for a supplied `nameStartsWith` made of characters
with no special regex meaning and a supplied `maxAge`, the search
returns exactly the stored users whose userName starts with the prefix
case-insensitively and whose age is strictly below `maxAge`. -/
theorem search_ci_name_and_age (s : Store) (pre : String) (m : Int)
    (h : ∀ c ∈ pre.data, regexLiteralChar c = true) :
    searchUsersHandler s (some pre) (some m) =
      { status := 200
        body := ApiBody.users (s.users.filter
          (fun u => specStartsWithCI pre.data u.userName.data && decide (u.age < m)))
        store := s } := by
  have hfil : ∀ u ∈ s.users,
      (nameClause (some pre) u.userName && ageLtClause (some m) u.age) =
      (specStartsWithCI pre.data u.userName.data && decide (u.age < m)) := by
    intro u _
    rw [nameClause, jsInterp, regexPrefixMatchCI_eq_spec _ h, ageLtClause]
  have hlist := List.filter_congr hfil
  simp [searchUsersHandler, hlist]

/-- Witness for `search_ci_name_and_age`: prefix "Al" selects Alice and
ALBERT but not Balrog. -/
theorem search_ci_name_and_age_witness :
    (∀ c ∈ "Al".data, regexLiteralChar c = true) ∧
    searchUsersHandler wNameStore (some "Al") (some 100) =
      { status := 200, body := ApiBody.users [wAlice, wAlbert], store := wNameStore } := by
  refine ⟨by decide, ?_⟩
  rw [search_ci_name_and_age wNameStore "Al" 100 (by decide)]
  decide

/-- C5 counterexample: the supplied text "." is spliced into the regular
expression, so the search returns Bob although "Bob" does not start
with ".". -/
theorem search_regex_dot_counterexample :
    (searchUsersHandler wBobStore (some ".") (some 100)).body = ApiBody.users [wBob] ∧
    specStartsWithCI ".".data "Bob".data = false :=
  ⟨by decide, by decide⟩

end NodeDay3
